import Mathlib

/-!
Verification of the KL art-map route-resolution engine.

This file gives a shallow embedding, in Lean 4, of the route-resolution core
of the repository:

* `src/data/stationCoordinates.ts` — the station directory and its
  radius query `getStationsWithinRadius`;
* `src/data/indoorConnections.ts` — the indoor-connection catalog and its
  proximity matcher `findRelevantIndoorConnections`;
* `src/hooks/useWalkingRoutes.ts` — the route resolver `fetchRoutes`
  (exit-candidate construction, indoor-vs-outdoor selection, per-station
  best-exit scoring, reachability filtering, sorting, route-id assignment,
  active-route designation), `switchActiveRoute`, and `clearRoutes`;
* the legacy matrix-based resolver variant of `useWalkingRoutes`
  (Matrix-preferred distance/duration selection);
* `src/services/routeService.ts` — the formatting helpers;
* `src/services/mapService.ts` — collaborator calls, modelled as effects.

The source computes great-circle distances with a `haversineMeters` function
built from floating-point transcendental functions (`Math.sin`, `Math.cos`,
`Math.atan2`).  Exact real-number evaluation of that formula is neither
decidable nor faithfully representable over `ℚ`, so every definition that
consumes it is parameterised by an abstract distance function
`dist : Coord → Coord → ℚ`; all structural theorems are proved for *every*
such function, hence in particular for the haversine distance.  Numeric
fields (meters, seconds) are modelled as exact rationals.

Asynchronous behaviour (abort signals, continuations that attach endpoint
markers) is modelled as an explicit event-step semantics on the hook's
session state, with one event per continuation in the source.
-/

/-- A longitude/latitude pair, the `[number, number]` coordinate tuples of the
source (GeoJSON order: longitude first). -/
structure Coord where
  lng : ℚ
  lat : ℚ
deriving DecidableEq

/-- An abstract distance function standing for `haversineMeters`
(`stationCoordinates.ts` lines 212-221, duplicated in
`indoorConnections.ts` lines 188-197). -/
abbrev DistFn := Coord → Coord → ℚ

/-! ## Station directory (`src/data/stationCoordinates.ts`) -/

/-- `StationExit` interface (`stationCoordinates.ts` lines 4-8). -/
structure StationExit where
  exitName : String
  coordinates : Coord
  description : Option String
deriving DecidableEq

/-- `StationData` interface (`stationCoordinates.ts` lines 10-15).
The transit-mode tag is one of the four string literals of the source. -/
structure StationData where
  name : String
  exits : List StationExit
  lines : List String
  type : String
deriving DecidableEq

/-- The `'KL Sentral'` entry of the directory
(`stationCoordinates.ts` lines 18-39). -/
def stKLSentral : StationData :=
  { name := "KL Sentral"
    , exits :=
      [ ⟨"Exit A - Street Level", ⟨101.6852, 3.1337⟩, some "Jalan Stesen Sentral, near taxi stand"⟩
      , ⟨"NU Sentral Mall", ⟨101.6869, 3.1334⟩, some "Direct access to NU Sentral Shopping Centre"⟩
      , ⟨"Hilton Hotel Exit", ⟨101.6855, 3.1348⟩, some "Nearest to Hilton KL and office towers"⟩ ]
    , lines := ["KTM", "LRT Kelana Jaya Line", "MRT Kajang Line", "KLIA Transit"]
    , type := "KTM" }

/-- The station directory (`stationCoordinates.ts` lines 17-182), in the
source's object-literal insertion order (which is what `Object.values`
iterates in). -/
def stationCoordinates : List StationData :=
  [ stKLSentral
  , { name := "Masjid Jamek LRT"
    , exits := [⟨"Main Exit", ⟨101.69646, 3.14968⟩, some "Temporary - needs exit research"⟩]
    , lines := ["LRT Ampang Line", "LRT Sri Petaling Line", "LRT Kelana Jaya Line"]
    , type := "LRT" }
  , { name := "Pasar Seni"
    , exits :=
      [ ⟨"Entrance A - Jalan Sultan", ⟨101.6947, 3.1419⟩, some "Central Market side (MRT/LRT shared)"⟩
      , ⟨"Entrance B - Jalan Sultan Mohamed", ⟨101.6951, 3.1428⟩, some "Petaling Street/Chinatown side"⟩
      , ⟨"Entrance D - Jln Tun Tan Cheng Lock", ⟨101.6959, 3.1425⟩, some "Kasturi Walk side"⟩ ]
    , lines := ["LRT Kelana Jaya Line", "MRT Kajang Line"]
    , type := "LRT" }
  , { name := "KLCC"
    , exits := [⟨"Main Exit", ⟨101.71396, 3.15933⟩, some "Temporary - needs exit research"⟩]
    , lines := ["LRT Kelana Jaya Line"]
    , type := "LRT" }
  , { name := "Persiaran KLCC"
    , exits := [⟨"Main Exit", ⟨101.718422, 3.1573407⟩, some "Temporary - needs exit research"⟩]
    , lines := ["MRT Putrajaya Line"]
    , type := "MRT" }
  , { name := "Ampang Park"
    , exits := [⟨"Main Exit", ⟨101.7183, 3.1588⟩, some "Temporary - needs exit research"⟩]
    , lines := ["LRT Kelana Jaya Line"]
    , type := "LRT" }
  , { name := "Brickfields"
    , exits := [⟨"Main Exit", ⟨101.6847, 3.1329⟩, some "Temporary - needs exit research"⟩]
    , lines := ["KTM Komuter"]
    , type := "KTM" }
  , { name := "Muzium Negara MRT"
    , exits := [⟨"Main Exit", ⟨101.6878027561305, 3.1375158655082434⟩, some "Temporary - needs exit research"⟩]
    , lines := ["MRT Kajang Line"]
    , type := "MRT" }
  , { name := "Bandaraya"
    , exits := [⟨"Main Exit", ⟨101.69442589509586, 3.1556520223802424⟩, some "Temporary - needs exit research"⟩]
    , lines := ["LRT Kelana Jaya Line"]
    , type := "LRT" }
  , { name := "Bukit Bintang Monorail"
    , exits := [⟨"Main Exit", ⟨101.7111, 3.1458⟩, some "Temporary - needs exit research"⟩]
    , lines := ["KL Monorail"]
    , type := "Monorail" }
  , { name := "Bukit Bintang MRT"
    , exits := [⟨"Main Exit", ⟨101.7100, 3.1468⟩, some "Temporary - needs exit research"⟩]
    , lines := ["MRT Kajang Line"]
    , type := "MRT" }
  , { name := "Raja Chulan Monorail"
    , exits := [⟨"Main Exit", ⟨101.7104, 3.1508⟩, some "Temporary - needs exit research"⟩]
    , lines := ["KL Monorail"]
    , type := "Monorail" } ]

/-- Minimum of a list of rationals; `none` models JavaScript's
`Math.min()` with no arguments evaluating to `Infinity` (which the radius
filter below then rejects). -/
def listMin? : List ℚ → Option ℚ
  | [] => none
  | x :: xs =>
    match listMin? xs with
    | none => some x
    | some m => some (min x m)

/-- Distances from a query point to each exit of a station
(`station.exits.map(exit => haversineMeters(coordinates, exit.coordinates))`,
`stationCoordinates.ts` lines 256-258). -/
def exitDistances (dist : DistFn) (coordinates : Coord) (station : StationData) : List ℚ :=
  station.exits.map fun e => dist coordinates e.coordinates

/-- The nearest-exit distance of a station from a query point
(`Math.min(...)` over `exitDistances`). -/
def nearestExitDist (dist : DistFn) (coordinates : Coord) (station : StationData) : Option ℚ :=
  listMin? (exitDistances dist coordinates station)

/-- Comparator used to model the JavaScript
`.sort((a, b) => a.dist - b.dist)` on `{station, dist}` entries
(`stationCoordinates.ts` line 262).  `none` (the `Infinity` case, which the
preceding filter has already removed) is treated as larger than every
number so that the relation is total. -/
def entryLEb (a b : StationData × Option ℚ) : Bool :=
  match a.2, b.2 with
  | _, none => true
  | none, some _ => false
  | some da, some db => decide (da ≤ db)

/-- The comparator as a relation, for `List.insertionSort`. -/
def entryLE (a b : StationData × Option ℚ) : Prop :=
  entryLEb a b = true

instance : DecidableRel entryLE := fun a b => instDecidableEqBool (entryLEb a b) true

instance : IsTotal (StationData × Option ℚ) entryLE where
  total a b := by
    rcases a with ⟨sa, _ | da⟩ <;> rcases b with ⟨sb, _ | db⟩ <;>
      simp [entryLE, entryLEb]
    exact le_total da db

instance : IsTrans (StationData × Option ℚ) entryLE where
  trans a b c hab hbc := by
    rcases a with ⟨sa, _ | da⟩ <;> rcases b with ⟨sb, _ | db⟩ <;>
      rcases c with ⟨sc, _ | dc⟩ <;>
      simp_all [entryLE, entryLEb]
    exact le_trans hab hbc

/-- `getStationsWithinRadius` (`stationCoordinates.ts` lines 249-264): all
stations whose nearest exit is within the straight-line radius, sorted
closest-first.  `List.insertionSort` models the (stable, ascending)
JavaScript `Array.prototype.sort`. -/
def getStationsWithinRadius (dist : DistFn) (coordinates : Coord) (radiusMeters : ℚ) : List StationData :=
  ((((stationCoordinates.map fun station =>
          (station, nearestExitDist dist coordinates station)).filter
        fun e =>
          match e.2 with
          | some d => decide (d ≤ radiusMeters)
          | none => false).insertionSort entryLE).map
    fun e => e.1)

/-! ## Indoor connection catalog (`src/data/indoorConnections.ts`) -/

/-- The named endpoint of an indoor connection
(`indoorConnections.ts` lines 7-14). -/
structure NamedPoint where
  name : String
  coordinates : Coord
deriving DecidableEq

/-- `IndoorConnection` interface (`indoorConnections.ts` lines 4-22).
The source field `end` is a Lean keyword and is rendered `endPoint`. -/
structure IndoorConnection where
  id : String
  name : String
  start : NamedPoint
  endPoint : NamedPoint
  distance : ℚ
  duration : ℚ
  type : String
  features : List String
  openingHours : Option String
  instructions : String
  isBidirectional : Bool
deriving DecidableEq

/-- The curated indoor-connection catalog
(`indoorConnections.ts` lines 31-138), in source order. -/
def indoorConnections : List IndoorConnection :=
  [ { id := "kl-sentral-nu-sentral"
    , name := "KL Sentral ↔ NU Sentral Mall"
    , start := ⟨"KL Sentral Level 2", ⟨101.6860, 3.1340⟩⟩
    , endPoint := ⟨"NU Sentral Shopping Centre", ⟨101.6869, 3.1334⟩⟩
    , distance := 150
    , duration := 120
    , type := "mall"
    , features := ["air-conditioned", "escalators", "wheelchair accessible", "restrooms"]
    , openingHours := some "5:30am - 12:00am daily"
    , instructions := "From KL Sentral, take escalator to Level 2 Connection Level. Walk straight into NU Sentral shopping mall."
    , isBidirectional := true }
  , { id := "nu-sentral-muzium-negara"
    , name := "NU Sentral ↔ Muzium Negara MRT"
    , start := ⟨"NU Sentral Shopping Centre", ⟨101.6869, 3.1334⟩⟩
    , endPoint := ⟨"Muzium Negara MRT Entrance C", ⟨101.6878, 3.1375⟩⟩
    , distance := 240
    , duration := 180
    , type := "covered_walkway"
    , features := ["covered", "elevated walkway", "escalators", "wheelchair accessible"]
    , openingHours := none
    , instructions := "Exit NU Sentral and follow the covered elevated walkway. The 240m walkway connects to Muzium Negara MRT Entrance C."
    , isBidirectional := true }
  , { id := "kl-sentral-muzium-negara-via-nu"
    , name := "KL Sentral → Muzium Negara MRT (via NU Sentral)"
    , start := ⟨"KL Sentral Level 2", ⟨101.6860, 3.1340⟩⟩
    , endPoint := ⟨"Muzium Negara MRT Entrance C", ⟨101.6878, 3.1375⟩⟩
    , distance := 390
    , duration := 300
    , type := "mall"
    , features := ["air-conditioned", "covered", "escalators", "wheelchair accessible", "restrooms"]
    , openingHours := some "5:30am - 12:00am daily"
    , instructions := "From KL Sentral Level 2, walk through NU Sentral mall (air-conditioned), then follow covered elevated walkway to Muzium Negara MRT."
    , isBidirectional := true }
  , { id := "pasar-seni-lrt-mrt"
    , name := "Pasar Seni LRT ↔ Pasar Seni MRT"
    , start := ⟨"Pasar Seni LRT Station", ⟨101.69531, 3.14247⟩⟩
    , endPoint := ⟨"Pasar Seni MRT Station", ⟨101.6953, 3.1422⟩⟩
    , distance := 65
    , duration := 60
    , type := "skybridge"
    , features := ["covered", "paid-to-paid link", "escalators", "lifts"]
    , openingHours := none
    , instructions := "Pedestrian bridge over Jalan Sultan Mohamed connects LRT Concourse Level to MRT Concourse Level. Paid area connection."
    , isBidirectional := true }
  , { id := "pasar-seni-central-market"
    , name := "Pasar Seni Station ↔ Central Market"
    , start := ⟨"Pasar Seni LRT/MRT Entrance A", ⟨101.6947, 3.1419⟩⟩
    , endPoint := ⟨"Central Market Main Entrance", ⟨101.6953, 3.1422⟩⟩
    , distance := 80
    , duration := 90
    , type := "covered_walkway"
    , features := ["covered", "heritage building", "shopping"]
    , openingHours := some "10:00am - 9:00pm daily"
    , instructions := "Exit Pasar Seni station Entrance A. Central Market is directly adjacent - short covered walk to the heritage building entrance."
    , isBidirectional := true } ]

/-- Splits a character list at every occurrence of `sep`; structural model of
the JavaScript `String.prototype.split` with a one-character separator. -/
def splitOnChar (sep : Char) : List Char → List (List Char)
  | [] => [[]]
  | c :: cs =>
    if c = sep then
      [] :: splitOnChar sep cs
    else
      match splitOnChar sep cs with
      | [] => [[c]]
      | p :: ps => (c :: p) :: ps

/-- Joins character lists with `sep` between them; model of
`Array.prototype.join` with a one-character separator. -/
def joinWithChar (sep : Char) : List (List Char) → List Char
  | [] => []
  | [p] => p
  | p :: ps => p ++ sep :: joinWithChar sep ps

/-- `connection.name.split('↔').reverse().join('↔')`
(`indoorConnections.ts` line 174). -/
def reverseName (s : String) : String :=
  String.mk (joinWithChar '↔' ((splitOnChar '↔' s.data).reverse))

/-- The reversed connection synthesized for a bidirectional entry
(`indoorConnections.ts` lines 171-177): swapped endpoints, `-reverse`
id suffix, reversed name. -/
def reverseConnection (c : IndoorConnection) : IndoorConnection :=
  { c with
    id := c.id ++ "-reverse"
    , name := reverseName c.name
    , start := c.endPoint
    , endPoint := c.start }

/-- `findRelevantIndoorConnections(from, to, maxDetourMeters)`
(`indoorConnections.ts` lines 147-183): for each catalog entry, keep the
forward edge when `from` is within the detour of its start and its end is
within the detour of `to`; for bidirectional entries additionally keep the
synthesized reverse edge under the mirrored test. -/
def findRelevantIndoorConnections (dist : DistFn) (fromPt toPt : Coord) (maxDetourMeters : ℚ) : List IndoorConnection :=
  (indoorConnections.map fun connection =>
      (if decide (dist fromPt connection.start.coordinates ≤ maxDetourMeters) &&
          decide (dist connection.endPoint.coordinates toPt ≤ maxDetourMeters) then
        [connection]
      else
        []) ++
      (if connection.isBidirectional &&
          (decide (dist fromPt connection.endPoint.coordinates ≤ maxDetourMeters) &&
           decide (dist connection.start.coordinates toPt ≤ maxDetourMeters)) then
        [reverseConnection connection]
      else
        [])).flatten

/-- The source declares `maxDetourMeters: number = 100`
(`indoorConnections.ts` line 150): calling the matcher without a detour
argument uses 100 meters. -/
def findRelevantIndoorConnectionsDefault (dist : DistFn) (fromPt toPt : Coord) : List IndoorConnection :=
  findRelevantIndoorConnections dist fromPt toPt 100

/-- Modelled from the spec (§4.2): the catalog expanded into directed edges —
each entry followed by its synthesized reverse when bidirectional. -/
def expandedCatalog : List IndoorConnection :=
  (indoorConnections.map fun c =>
      c :: (if c.isBidirectional then [reverseConnection c] else [])).flatten

/-- Modelled from the spec (§4.2): a directed edge is usable between `fromPt`
and `toPt` when the distance from `fromPt` to its start and from its end to
`toPt` are both within the detour tolerance. -/
def usableConnection (dist : DistFn) (fromPt toPt : Coord) (maxDetourMeters : ℚ) (c : IndoorConnection) : Bool :=
  decide (dist fromPt c.start.coordinates ≤ maxDetourMeters) &&
    decide (dist c.endPoint.coordinates toPt ≤ maxDetourMeters)

/-- Modelled from the spec (§4.2): `findUsable` returns every usable directed
edge, in catalog order. -/
def findUsableSpec (dist : DistFn) (fromPt toPt : Coord) (maxDetourMeters : ℚ) : List IndoorConnection :=
  expandedCatalog.filter (usableConnection dist fromPt toPt maxDetourMeters)

/-! ## Formatting helpers (`src/services/routeService.ts`) -/

/-- JavaScript `Math.round` on a rational: half-way cases round up
(toward positive infinity). -/
def jsRound (q : ℚ) : ℤ :=
  ⌊q + 1 / 2⌋

/-- `formatDistance` (`routeService.ts` lines 101-104): `"150m"` below one
kilometre, otherwise kilometres with one decimal place (the decimal string
of `toFixed(1)` modelled by rounding tenths of a kilometre). -/
def formatDistance (meters : ℚ) : String :=
  if meters < 1000 then
    toString (jsRound meters) ++ "m"
  else
    toString (jsRound (meters / 100) / 10) ++ "." ++ toString ((jsRound (meters / 100)) % 10) ++ "km"

/-- `formatDuration` (`routeService.ts` lines 107-113). -/
def formatDuration (seconds : ℚ) : String :=
  let mins := jsRound (seconds / 60)
  if mins < 60 then
    toString mins ++ " mins"
  else
    let h := mins / 60
    let m := mins % 60
    if m > 0 then toString h ++ "h " ++ toString m ++ "m" else toString h ++ "h"

/-! ## Route resolver (`src/hooks/useWalkingRoutes.ts`, `fetchRoutes`) -/

/-- One turn-by-turn step, as consumed by the hook (the synthetic indoor step
built at `useWalkingRoutes.ts` lines 185-192 exercises every field). -/
structure RouteStep where
  distance : ℚ
  duration : ℚ
  name : String
  instruction : String
  maneuverType : String
  isCrossing : Bool
deriving DecidableEq

/-- The per-combo route value produced inside the `Promise.allSettled`
callback (`useWalkingRoutes.ts` lines 163-210): either the synthetic indoor
route or a directions result spread together with `isIndoor`.  An absent
`indoorFeatures` field of an outdoor result is modelled as `[]`, which is
what the `|| []` default at line 268 turns it into. -/
structure RouteValue where
  success : Bool
  distance : ℚ
  duration : ℚ
  geometry : List Coord
  steps : List RouteStep
  isIndoor : Bool
  indoorFeatures : List String
deriving DecidableEq

/-- A settled promise of the `Promise.allSettled` array: `rejected` carries no
value (only an abort can reject these callbacks), `fulfilled` carries the
combo's `RouteValue`. -/
inductive SettledOutcome where
  | rejected : SettledOutcome
  | fulfilled : RouteValue → SettledOutcome
deriving DecidableEq

/-- One (station, exit) combination (`useWalkingRoutes.ts` lines 150-159). -/
structure ExitCombo where
  station : StationData
  exit : StationExit
deriving DecidableEq

/-- `allExitCombos` (`useWalkingRoutes.ts` lines 155-159): every exit of
every candidate station, stations in order, exits in order within each. -/
def allExitCombos (stations : List StationData) : List ExitCombo :=
  (stations.map fun station => station.exits.map fun e => ExitCombo.mk station e).flatten

/-- The per-combo callback (`useWalkingRoutes.ts` lines 164-209): query the
indoor catalog with the exit as `from` and the destination as `to` using a
150 m detour allowance; if any connection matches, synthesize an indoor
route from the first match (straight-line geometry between its endpoints)
and do not consult the directions result; otherwise fall back to the
directions result, marked outdoor. -/
def computeCandidate (dist : DistFn) (exitCoordinates origin : Coord) (dirResult : RouteValue) : RouteValue :=
  match findRelevantIndoorConnections dist exitCoordinates origin 150 with
  | bestIndoor :: _ =>
    { success := true
      , distance := bestIndoor.distance
      , duration := bestIndoor.duration
      , geometry := [bestIndoor.start.coordinates, bestIndoor.endPoint.coordinates]
      , steps := [⟨bestIndoor.distance, bestIndoor.duration, bestIndoor.name, bestIndoor.instructions, "indoor", false⟩]
      , isIndoor := true
      , indoorFeatures := bestIndoor.features }
  | [] => { dirResult with isIndoor := false }

/-- Modelled from the spec (§4.4 step 2): the candidate synthesized from an
indoor connection — its distance, duration, instructions and features, with
geometry a straight line between the connection's two endpoints, marked
indoor. -/
def synthIndoorCandidate (c : IndoorConnection) : RouteValue :=
  { success := true
    , distance := c.distance
    , duration := c.duration
    , geometry := [c.start.coordinates, c.endPoint.coordinates]
    , steps := [⟨c.distance, c.duration, c.name, c.instructions, "indoor", false⟩]
    , isIndoor := true
    , indoorFeatures := c.features }

/-- Modelled from the spec (§4.4 step 2): a directions result adopted as an
outdoor candidate. -/
def outdoorCandidate (dirResult : RouteValue) : RouteValue :=
  { dirResult with isIndoor := false }

/-- The grouped best-exit entry stored in the `stationBestExits` map
(`useWalkingRoutes.ts` lines 216-220). -/
structure BestEntry where
  exit : StationExit
  route : RouteValue
  station : StationData
deriving DecidableEq

/-- Lookup in an insertion-ordered string-keyed map (JavaScript `Map.get`). -/
def mapGet? (m : List (String × BestEntry)) (k : String) : Option BestEntry :=
  (m.find? fun p => p.1 == k).map fun p => p.2

/-- Update of an insertion-ordered string-keyed map (JavaScript `Map.set`):
an existing key keeps its insertion position, a new key is appended. -/
def mapSet (m : List (String × BestEntry)) (k : String) (v : BestEntry) : List (String × BestEntry) :=
  if m.any fun p => p.1 == k then
    m.map fun p => if p.1 == k then (k, v) else p
  else
    m ++ [(k, v)]

/-- The selection score (`useWalkingRoutes.ts` lines 230-232): indoor routes
get a 30% bonus, i.e. score = duration × 0.7; outdoor score = duration. -/
def routeScore (r : RouteValue) : ℚ :=
  if r.isIndoor then r.duration * 0.7 else r.duration

/-- One step of the grouping loop (`useWalkingRoutes.ts` lines 222-246):
skip rejected or unsuccessful results; otherwise keep the combo's route for
its station when its score beats the stored one strictly (a missing entry
counts as score `Infinity`, so it always loses). -/
def considerCombo (m : List (String × BestEntry)) (combo : ExitCombo) (outcome : SettledOutcome) : List (String × BestEntry) :=
  match outcome with
  | .rejected => m
  | .fulfilled route =>
    if route.success then
      match mapGet? m combo.station.name with
      | none => mapSet m combo.station.name ⟨combo.exit, route, combo.station⟩
      | some existing =>
        if routeScore route < routeScore existing.route then
          mapSet m combo.station.name ⟨combo.exit, route, combo.station⟩
        else
          m
    else
      m

/-- The `stationBestExits` map after the grouping loop
(`useWalkingRoutes.ts` lines 216-246), as a function of the combo list
paired with each combo's settled outcome. -/
def stationBestExits (pairs : List (ExitCombo × SettledOutcome)) : List (String × BestEntry) :=
  pairs.foldl (fun m p => considerCombo m p.1 p.2) []

/-- `WalkingRouteData` (`useWalkingRoutes.ts` lines 21-37). -/
structure WalkingRouteData where
  stationName : String
  exitName : String
  coordinates : Coord
  exitDescription : Option String
  lines : List String
  distance : ℚ
  duration : ℚ
  formattedDistance : String
  formattedDuration : String
  geometry : List Coord
  steps : List RouteStep
  routeId : String
  hasIndoorRoute : Bool
  indoorPercentage : ℚ
  indoorFeatures : List String
deriving DecidableEq

/-- The final route construction (`useWalkingRoutes.ts` lines 249-270):
`Array.from(stationBestExits.values()).map((best, i) => …)` — the route id
`walking-route-{i}` is taken from the position in the *grouping* map, before
any filtering or sorting. -/
def buildRoutes (pairs : List (ExitCombo × SettledOutcome)) : List WalkingRouteData :=
  (stationBestExits pairs).mapIdx fun i p =>
    { stationName := p.2.station.name
      , exitName := p.2.exit.exitName
      , coordinates := p.2.exit.coordinates
      , exitDescription := p.2.exit.description
      , lines := p.2.station.lines
      , distance := p.2.route.distance
      , duration := p.2.route.duration
      , formattedDistance := formatDistance p.2.route.distance
      , formattedDuration := formatDuration p.2.route.duration
      , geometry := p.2.route.geometry
      , steps := p.2.route.steps
      , routeId := "walking-route-" ++ toString i
      , hasIndoorRoute := p.2.route.isIndoor
      , indoorPercentage := if p.2.route.isIndoor then 100 else 0
      , indoorFeatures := p.2.route.indoorFeatures }

/-- Comparator modelling `.sort((a, b) => a.duration - b.duration)`
(`useWalkingRoutes.ts` line 277). -/
def routeDurLE (a b : WalkingRouteData) : Prop :=
  a.duration ≤ b.duration

instance : DecidableRel routeDurLE := fun a b => inferInstanceAs (Decidable (a.duration ≤ b.duration))

instance : IsTotal WalkingRouteData routeDurLE where
  total a b := le_total a.duration b.duration

instance : IsTrans WalkingRouteData routeDurLE where
  trans _ _ _ hab hbc := le_trans hab hbc

/-- `walkableRoutes` (`useWalkingRoutes.ts` lines 274-277): keep routes with
`0 < duration ≤ 900` (the 15-minute threshold `MAX_WALK_SECONDS`), sorted
ascending by duration.  `List.insertionSort` models the stable JavaScript
`Array.prototype.sort`. -/
def walkableRoutes (pairs : List (ExitCombo × SettledOutcome)) : List WalkingRouteData :=
  ((buildRoutes pairs).filter fun r =>
      decide (0 < r.duration) && decide (r.duration ≤ 900)).insertionSort routeDurLE

/-- The active-route designation (`useWalkingRoutes.ts` lines 294-297): when
a map is attached and at least one walkable route exists, the first
(shortest-duration) route becomes active; otherwise the previous value is
left in place. -/
def resolveActiveRouteId (prev : Option String) (pairs : List (ExitCombo × SettledOutcome)) (hasMap : Bool) : Option String :=
  match walkableRoutes pairs with
  | [] => prev
  | r :: _ => if hasMap then some r.routeId else prev

/-- The successful candidates contributed to a given station by a combo/outcome
list, in enumeration order: the combos whose promise fulfilled with
`success`, restricted to the station, as `BestEntry` values. -/
def successEntriesFor (s : String) (pairs : List (ExitCombo × SettledOutcome)) : List BestEntry :=
  pairs.foldr
    (fun p acc =>
      match p.2 with
      | .rejected => acc
      | .fulfilled route =>
        if route.success && (p.1.station.name == s) then
          ⟨p.1.exit, route, p.1.station⟩ :: acc
        else
          acc)
    []

/-- Modelled from the spec (§4.4 step 3): the minimum selection score among a
list of candidates. -/
def minScore : List BestEntry → Option ℚ
  | [] => none
  | c :: cs =>
    match minScore cs with
    | none => some (routeScore c.route)
    | some m => some (min (routeScore c.route) m)

/-- Modelled from the spec (§4.4 step 3): the candidate whose score is
lowest; when several candidates attain the lowest score, the one
encountered first. -/
def pickLowest (l : List BestEntry) : Option BestEntry :=
  match minScore l with
  | none => none
  | some m => l.find? fun c => decide (routeScore c.route = m)

/-! ## Legacy matrix-based resolver (the earlier `useWalkingRoutes` variant) -/

/-- A station as consumed by the legacy resolver's `resolveStations`
(single coordinate per station). -/
structure LegacyStation where
  name : String
  coordinates : Coord
  lines : List String
deriving DecidableEq

/-- `MatrixResult` (`routeService.ts` lines 12-16); entries are optional
because the Matrix API may return `null` for an unreachable destination
(the legacy hook's `!= null` checks). -/
structure MatrixValue where
  distances : List (Option ℚ)
  durations : List (Option ℚ)
  success : Bool
deriving DecidableEq

/-- A directions result as consumed by the legacy hook (distance, duration,
geometry, steps, success flag). -/
structure LegacyDirValue where
  distance : ℚ
  duration : ℚ
  geometry : List Coord
  steps : List RouteStep
  success : Bool
deriving DecidableEq

/-- `matrix.distances[i] != null` followed by the directions fallback
(`legacy fetchRoutes` lines 139-144): a fulfilled, successful matrix value
with a non-null entry at `i` wins; otherwise a successful directions result
supplies the value; otherwise 0. -/
def legacySelectField (matrix : Option MatrixValue) (field : MatrixValue → List (Option ℚ)) (dirField : LegacyDirValue → ℚ) (dirResult : Option LegacyDirValue) (i : Nat) : ℚ :=
  match matrix with
  | some m =>
    if m.success then
      match (field m).getD i none with
      | some v => v
      | none =>
        match dirResult with
        | some d => if d.success then dirField d else 0
        | none => 0
    else
      match dirResult with
      | some d => if d.success then dirField d else 0
      | none => 0
  | none =>
    match dirResult with
    | some d => if d.success then dirField d else 0
    | none => 0

/-- The legacy `WalkingRouteData` (lines 19-31 of the legacy hook). -/
structure LegacyWalkingRoute where
  stationName : String
  coordinates : Coord
  lines : List String
  distance : ℚ
  duration : ℚ
  formattedDistance : String
  formattedDuration : String
  geometry : Option (List Coord)
  steps : List RouteStep
  color : String
  routeId : String
deriving DecidableEq

/-- `routeColors` (`stationCoordinates.ts` lines 267-278). -/
def routeColors : List String :=
  ["#FF6B6B", "#4ECDC4", "#45B7D1", "#96CEB4", "#FFEAA7",
   "#DDA0DD", "#98D8C8", "#F7DC6F", "#BB8FCE", "#85C1E9"]

/-- Wrap an integer into the signed 32-bit range, as JavaScript's `| 0` /
`& a` coercions do. -/
def toInt32 (n : ℤ) : ℤ :=
  ((n + 2 ^ 31) % 2 ^ 32) - 2 ^ 31

/-- One step of the `getRouteColor` string hash
(`stationCoordinates.ts` lines 282-285): `a = ((a << 5) - a) + code`, then
`a & a` truncates back to 32 bits. -/
def hashStep (a : ℤ) (code : ℤ) : ℤ :=
  toInt32 (toInt32 (a * 32) - a + code)

/-- `getRouteColor` (`stationCoordinates.ts` lines 281-287): a deterministic
colour from the station-name hash plus the index. -/
def getRouteColor (stationName : String) (index : Nat) : String :=
  let hash := stationName.data.foldl (fun a ch => hashStep a (Int.ofNat ch.toNat)) 0
  routeColors.getD ((hash.natAbs + index) % routeColors.length) ""

/-- One entry of the legacy resolver's `routes` array
(legacy `fetchRoutes` lines 131-176). -/
def legacyRoute (matrix : Option MatrixValue) (dirs : List (Option LegacyDirValue)) (i : Nat) (station : LegacyStation) : LegacyWalkingRoute :=
  let dirResult := (dirs.getD i none)
  let distance := legacySelectField matrix (fun m => m.distances) (fun d => d.distance) dirResult i
  let duration := legacySelectField matrix (fun m => m.durations) (fun d => d.duration) dirResult i
  { stationName := station.name
    , coordinates := station.coordinates
    , lines := station.lines
    , distance := distance
    , duration := duration
    , formattedDistance := if distance > 0 then formatDistance distance else ""
    , formattedDuration := if duration > 0 then formatDuration duration else ""
    , geometry :=
        match dirResult with
        | some d => if d.success && decide (d.geometry.length > 0) then some d.geometry else none
        | none => none
    , steps :=
        match dirResult with
        | some d => if d.success then d.steps else []
        | none => []
    , color := getRouteColor station.name i
    , routeId := "walking-route-" ++ toString i }

/-- The legacy resolver's `routes` array (`stations.map((station, i) => …)`,
legacy `fetchRoutes` lines 131-176). -/
def legacyRoutes (matrix : Option MatrixValue) (dirs : List (Option LegacyDirValue)) (stations : List LegacyStation) : List LegacyWalkingRoute :=
  stations.mapIdx fun i station => legacyRoute matrix dirs i station

/-- The legacy walkable filter (legacy `fetchRoutes` line 181): keep stations
with `0 < duration ≤ 900`; the legacy variant does not sort. -/
def legacyWalkableRoutes (matrix : Option MatrixValue) (dirs : List (Option LegacyDirValue)) (stations : List LegacyStation) : List LegacyWalkingRoute :=
  (legacyRoutes matrix dirs stations).filter fun r =>
    decide (0 < r.duration) && decide (r.duration ≤ 900)

/-! ## Session state and asynchronous continuations (`useWalkingRoutes.ts`) -/

/-- An endpoint marker, tagged with the session token that was current when
its creation was requested (the tag is bookkeeping of the model; the source
marker object is opaque). -/
structure TaggedMarker where
  originToken : Option Nat
  label : String
deriving DecidableEq

/-- The hook's session state: the current abort-controller token
(`abortRef`), the drawn route ids (`activeRouteIds`), the endpoint markers
(`endpointMarkers`), the resolved list (`routeDataRef` / `routeData`), and
the active route id. -/
structure SessionState where
  currentToken : Option Nat
  activeRouteIds : List String
  endpointMarkers : List TaggedMarker
  routeDataRef : List WalkingRouteData
  routeData : List WalkingRouteData
  activeRouteId : Option String
deriving DecidableEq

/-- The atomic steps of the hook's asynchronous behaviour, one per
synchronous region between awaits in the source. -/
inductive SessionEvent where
  /-- `fetchRoutes` synchronous prefix (lines 122-133): abort the previous
  controller, install a fresh token, clear layers and markers, reset ids. -/
  | fetchStart (token : Nat) : SessionEvent
  /-- `fetchRoutes` post-await region (lines 272-297 and 331-332): guarded by
  `signal.aborted`; draws layers, installs the new route ids, stores the
  resolved list, designates the first route active. -/
  | fetchDraw (token : Nat) (newIds : List String) (routes : List WalkingRouteData) (active : Option String) : SessionEvent
  /-- `fetchRoutes` endpoint-marker continuation (lines 298-303): guarded by
  `signal.aborted`; discarded markers are removed immediately. -/
  | fetchMarkersReady (token : Nat) (markers : List TaggedMarker) : SessionEvent
  /-- `switchActiveRoute` synchronous part (lines 94-106, 118): restyle,
  clear old markers, set the active id, request new markers. -/
  | switchStart (routeId : String) : SessionEvent
  /-- `switchActiveRoute` marker continuation (lines 107-115): guarded only
  by `activeRouteIds.current.length > 0`. -/
  | switchMarkersReady (markers : List TaggedMarker) : SessionEvent
  /-- `clearRoutes` (lines 76-92): abort, remove layers and markers, reset
  every piece of session state. -/
  | clearRoutes : SessionEvent
deriving DecidableEq

/-- The step semantics of one event on the session state, following the
guards of the source regions cited on each constructor. -/
def sessionStep (s : SessionState) : SessionEvent → SessionState
  | .fetchStart token =>
    { s with
      currentToken := some token
      , endpointMarkers := []
      , activeRouteIds := [] }
  | .fetchDraw token newIds routes active =>
    if s.currentToken = some token then
      { s with
        activeRouteIds := newIds
        , routeDataRef := routes
        , routeData := routes
        , activeRouteId := active }
    else
      s
  | .fetchMarkersReady token markers =>
    if s.currentToken = some token then
      { s with endpointMarkers := markers }
    else
      s
  | .switchStart routeId =>
    { s with
      endpointMarkers := []
      , activeRouteId := some routeId }
  | .switchMarkersReady markers =>
    if s.activeRouteIds.isEmpty then
      s
    else
      { s with endpointMarkers := markers }
  | .clearRoutes =>
    { currentToken := none
      , activeRouteIds := []
      , endpointMarkers := []
      , routeDataRef := []
      , routeData := []
      , activeRouteId := none }

/-- Running a list of events from a state. -/
def sessionRun (s : SessionState) (events : List SessionEvent) : SessionState :=
  events.foldl sessionStep s

/-- One step of the running best-candidate selection, as the grouping loop
performs it per station: keep the challenger only when its score is
strictly lower. -/
def selectStep (acc : Option BestEntry) (c : BestEntry) : Option BestEntry :=
  match acc with
  | none => some c
  | some b => if routeScore c.route < routeScore b.route then some c else some b

/-- The collaborator calls (`mapService.ts` / `routeService.ts`) issued by the
hook, as observable effects. -/
inductive MapEffect where
  | setActiveRouteStyle (routeId : String) (allRouteIds : List String) : MapEffect
  | removeMarkers (markers : List TaggedMarker) : MapEffect
  | requestEndpointMarkers (a b : Coord) : MapEffect
  | drawRouteLayer (routeId : String) (isActive : Bool) : MapEffect
  | fitBounds (coords : List Coord) : MapEffect
  | netDirectionsCall (a b : Coord) : MapEffect
  | netMatrixCall (origin : Coord) (destinations : List Coord) : MapEffect
deriving DecidableEq

/-- Network effects are the two gateway calls (`fetchDirectionsRoute` and
`fetchMatrixDistances` of `routeService.ts`); everything else is local map
styling or marker bookkeeping. -/
def isNetworkEffect : MapEffect → Bool
  | .netDirectionsCall _ _ => true
  | .netMatrixCall _ _ => true
  | _ => false

/-- `switchActiveRoute` (`useWalkingRoutes.ts` lines 94-119), synchronous
part: nothing happens without a map; otherwise restyle the routes
(`setActiveRoute`), clear the old endpoint markers, look the route up in
`routeDataRef` (synchronously), request new endpoint markers when found,
and set the active route id.  Returns the new state and the collaborator
calls issued. -/
def switchActiveRoute (s : SessionState) (routeId : String) (hasMap : Bool) (locationCoordinates : Coord) : SessionState × List MapEffect :=
  if hasMap then
    let restyle := MapEffect.setActiveRouteStyle routeId s.activeRouteIds
    let removeOld := MapEffect.removeMarkers s.endpointMarkers
    let cleared := { s with endpointMarkers := ([] : List TaggedMarker) }
    match s.routeDataRef.find? fun r => r.routeId == routeId with
    | some route =>
      ({ cleared with activeRouteId := some routeId },
        [restyle, removeOld, MapEffect.requestEndpointMarkers locationCoordinates route.coordinates])
    | none =>
      ({ cleared with activeRouteId := some routeId }, [restyle, removeOld])
  else
    (s, [])

/-! ## Concrete inputs used by witnesses and counterexamples -/

/-- A distance function that reports 0 meters everywhere. -/
def distZero : DistFn := fun _ _ => 0

/-- A distance function that reports 120 meters everywhere: more than the
100 m source default, within the 150 m detour the resolver passes. -/
def distOneTwenty : DistFn := fun _ _ => 120

/-- The origin of the coordinate plane, as a concrete query point. -/
def coordZero : Coord := ⟨0, 0⟩

/-- A station with one exit, used as concrete resolver input. -/
def stationAlpha : StationData :=
  ⟨"Alpha", [⟨"Exit A", ⟨1, 2⟩, none⟩], ["Line 1"], "MRT"⟩

/-- A second station with one exit, used as concrete resolver input. -/
def stationBeta : StationData :=
  ⟨"Beta", [⟨"Exit B", ⟨3, 4⟩, none⟩], ["Line 2"], "LRT"⟩

/-- A successful outdoor directions value with an 800-second walk. -/
def routeValue800 : RouteValue :=
  ⟨true, 640, 800, [⟨1, 2⟩, ⟨0, 0⟩], [], false, []⟩

/-- A successful outdoor directions value with a 500-second walk. -/
def routeValue500 : RouteValue :=
  ⟨true, 400, 500, [⟨3, 4⟩, ⟨0, 0⟩], [], false, []⟩

/-- A failed directions value (the `success: false` placeholder the gateway
returns on error). -/
def routeValueFailed : RouteValue :=
  ⟨false, 0, 0, [], [], false, []⟩

/-- Resolver input in which the first-grouped station (Alpha, 800 s) has a
longer walk than the second (Beta, 500 s), so duration sorting reverses the
grouping order. -/
def pairsAlphaBeta : List (ExitCombo × SettledOutcome) :=
  [ (⟨stationAlpha, ⟨"Exit A", ⟨1, 2⟩, none⟩⟩, .fulfilled routeValue800)
  , (⟨stationBeta, ⟨"Exit B", ⟨3, 4⟩, none⟩⟩, .fulfilled routeValue500) ]

/-- A resolved walking route carried by the stale-marker counterexample
trace (integer fields only). -/
def walkingRouteZero : WalkingRouteData :=
  ⟨"Alpha", "Exit A", ⟨1, 2⟩, none, ["Line 1"], 640, 800, "640m", "13 mins",
    [⟨1, 2⟩, ⟨0, 0⟩], [], "walking-route-0", false, 0, []⟩

/-- Session state mid-way through a first resolution (token 1): one route
drawn and resolved, markers not yet attached. -/
def sessionAfterFirstResolve : SessionState :=
  ⟨some 1, ["walking-route-0"], [], [walkingRouteZero], [walkingRouteZero], some "walking-route-0"⟩

/-- The marker pair created by a `switchActiveRoute` continuation that began
under session token 1. -/
def staleMarkers : List TaggedMarker :=
  [⟨some 1, "stale-start"⟩, ⟨some 1, "stale-end"⟩]

/-- The interleaving in which a switch's marker continuation resolves after
a second resolution (token 2) has started and drawn its routes: the switch
runs synchronously, the new resolution begins (clearing ids), draws (ids
nonempty again), and only then does the switch's marker continuation fire. -/
def staleMarkerTrace : List SessionEvent :=
  [ .switchStart "walking-route-0"
  , .fetchStart 2
  , .fetchDraw 2 ["walking-route-0"] [walkingRouteZero] (some "walking-route-0")
  , .switchMarkersReady staleMarkers ]

/-! ## Theorems -/

theorem findRelevant_flatten_aux (dist : DistFn) (fromPt toPt : Coord) (m : ℚ) (l : List IndoorConnection) :
    (l.map fun connection =>
        (if decide (dist fromPt connection.start.coordinates ≤ m) &&
            decide (dist connection.endPoint.coordinates toPt ≤ m) then
          [connection]
        else
          []) ++
        (if connection.isBidirectional &&
            (decide (dist fromPt connection.endPoint.coordinates ≤ m) &&
             decide (dist connection.start.coordinates toPt ≤ m)) then
          [reverseConnection connection]
        else
          [])).flatten =
      ((l.map fun c => c :: (if c.isBidirectional then [reverseConnection c] else [])).flatten).filter
        (usableConnection dist fromPt toPt m) := by
  induction l with
  | nil => rfl
  | cons c cs ih =>
    simp only [List.map_cons, List.flatten_cons, List.filter_append, ih,
      List.filter_cons]
    rcases hb : c.isBidirectional with _ | _
    · simp [usableConnection, hb]
    · simp only [hb, Bool.true_and, if_true]
      rcases hf : usableConnection dist fromPt toPt m c with _ | _
      · simp only [usableConnection] at hf
        simp [hf, usableConnection, reverseConnection, List.filter_cons]
      · simp only [usableConnection] at hf
        simp [hf, usableConnection, reverseConnection, List.filter_cons]

theorem findRelevant_eq_spec (dist : DistFn) (fromPt toPt : Coord) (m : ℚ) :
    findRelevantIndoorConnections dist fromPt toPt m = findUsableSpec dist fromPt toPt m :=
  findRelevant_flatten_aux dist fromPt toPt m indoorConnections

/-- C5: `findRelevantIndoorConnections` returns exactly the usable directed
edges — each catalog entry, and for each bidirectional entry a synthesized
reverse with swapped endpoints and reversed name — whose start lies within
the detour of `from` and whose end lies within the detour of `to`, in
catalog order; but the source's default detour, used when the argument is
omitted, is 100 meters (the resolver passes 150 explicitly). -/
theorem findUsable_matches_spec (dist : DistFn) (fromPt toPt : Coord) (maxDetourMeters : ℚ) :
    findRelevantIndoorConnections dist fromPt toPt maxDetourMeters =
        findUsableSpec dist fromPt toPt maxDetourMeters ∧
      findRelevantIndoorConnectionsDefault dist fromPt toPt =
        findRelevantIndoorConnections dist fromPt toPt 100 :=
  ⟨findRelevant_eq_spec dist fromPt toPt maxDetourMeters, rfl⟩

/-- C5 counterexample: at a uniform 120 m distance the no-argument call
(default) returns no connections, while a 150 m detour returns them all, so
the default is not 150 meters. -/
theorem findUsable_default_not_150 :
    findRelevantIndoorConnectionsDefault distOneTwenty coordZero coordZero ≠
      findRelevantIndoorConnections distOneTwenty coordZero coordZero 150 := by
  decide

theorem mem_stations_within_radius (dist : DistFn) (p : Coord) (r : ℚ) (s : StationData) :
    s ∈ getStationsWithinRadius dist p r ↔
      s ∈ stationCoordinates ∧ ∃ d, nearestExitDist dist p s = some d ∧ d ≤ r := by
  unfold getStationsWithinRadius
  constructor
  · intro hs
    rcases List.mem_map.mp hs with ⟨e, he, rfl⟩
    have he' := (List.perm_insertionSort entryLE _).mem_iff.mp he
    rcases List.mem_filter.mp he' with ⟨hmem, hpred⟩
    rcases List.mem_map.mp hmem with ⟨st, hst, rfl⟩
    refine ⟨hst, ?_⟩
    rcases hd : nearestExitDist dist p st with _ | d
    · rw [hd] at hpred
      simp at hpred
    · rw [hd] at hpred
      exact ⟨d, rfl, by simpa using hpred⟩
  · rintro ⟨hmem, d, hd, hdr⟩
    refine List.mem_map.mpr ⟨(s, nearestExitDist dist p s), ?_, rfl⟩
    refine (List.perm_insertionSort entryLE _).mem_iff.mpr ?_
    refine List.mem_filter.mpr ⟨List.mem_map.mpr ⟨s, hmem, rfl⟩, ?_⟩
    rw [hd]
    simpa using hdr

theorem pairwise_stations_within_radius (dist : DistFn) (p : Coord) (r : ℚ) :
    (getStationsWithinRadius dist p r).Pairwise fun s t =>
      ∃ ds dt, nearestExitDist dist p s = some ds ∧ nearestExitDist dist p t = some dt ∧ ds ≤ dt := by
  unfold getStationsWithinRadius
  rw [List.pairwise_map]
  have hsorted :
      ((stationCoordinates.map fun station =>
          (station, nearestExitDist dist p station)).filter fun e =>
            match e.2 with
            | some d => decide (d ≤ r)
            | none => false).insertionSort entryLE |>.Pairwise entryLE :=
    List.sorted_insertionSort entryLE _
  refine hsorted.imp_of_mem ?_
  intro a b ha hb hab
  have hchar : ∀ c, c ∈ ((stationCoordinates.map fun station =>
      (station, nearestExitDist dist p station)).filter fun e =>
        match e.2 with
        | some d => decide (d ≤ r)
        | none => false).insertionSort entryLE →
      ∃ d, c.2 = some d ∧ c.2 = nearestExitDist dist p c.1 := by
    intro c hc
    have hc' := (List.perm_insertionSort entryLE _).mem_iff.mp hc
    rcases List.mem_filter.mp hc' with ⟨hmem, hpred⟩
    rcases List.mem_map.mp hmem with ⟨st, _, rfl⟩
    rcases hd : nearestExitDist dist p st with _ | d
    · rw [hd] at hpred
      simp at hpred
    · exact ⟨d, rfl, by simp [hd]⟩
  rcases hchar a ha with ⟨da, hda, hda'⟩
  rcases hchar b hb with ⟨db, hdb, hdb'⟩
  refine ⟨da, db, by rw [← hda', hda], by rw [← hdb', hdb], ?_⟩
  have : entryLEb a b = true := hab
  rw [entryLEb] at this
  rcases a with ⟨sa, a2⟩
  rcases b with ⟨sb, b2⟩
  simp only at hda hdb
  subst hda hdb
  simpa using this

/-- C7: for every distance function (in particular the haversine distance of
the source), `getStationsWithinRadius` returns all and only the stations
whose nearest exit lies within the radius, sorted ascending by that
nearest-exit distance. -/
theorem stations_within_radius_spec (dist : DistFn) (p : Coord) (r : ℚ) :
    (∀ s : StationData,
        s ∈ getStationsWithinRadius dist p r ↔
          s ∈ stationCoordinates ∧ ∃ d, nearestExitDist dist p s = some d ∧ d ≤ r) ∧
      (getStationsWithinRadius dist p r).Pairwise fun s t =>
        ∃ ds dt, nearestExitDist dist p s = some ds ∧ nearestExitDist dist p t = some dt ∧ ds ≤ dt :=
  ⟨fun s => mem_stations_within_radius dist p r s, pairwise_stations_within_radius dist p r⟩

/-- C7 witness: under the everywhere-zero distance function, KL Sentral (at
nearest-exit distance 0) is returned for a 100 m radius query. -/
theorem stations_within_radius_spec_witness :
    stKLSentral ∈ getStationsWithinRadius distZero coordZero 100 := by
  refine ((stations_within_radius_spec distZero coordZero 100).1 stKLSentral).mpr ?_
  refine ⟨by unfold stationCoordinates; exact List.mem_cons_self _ _, 0, ?_, by norm_num⟩
  decide

/-- C2: every resolved walkable route set contains only routes with
`0 < duration ≤ 900` seconds, and is sorted non-decreasingly by duration
(stations whose selected duration is 0 or exceeds the 900-second threshold
were dropped by the filter). -/
theorem walkable_bounded_and_sorted (pairs : List (ExitCombo × SettledOutcome)) :
    ((walkableRoutes pairs).all fun r => decide (0 < r.duration) && decide (r.duration ≤ 900)) = true ∧
      (walkableRoutes pairs).Pairwise fun a b => a.duration ≤ b.duration := by
  constructor
  · rw [List.all_eq_true]
    intro r hr
    have hr' := (List.perm_insertionSort routeDurLE _).mem_iff.mp hr
    exact (List.mem_filter.mp hr').2
  · have h := List.sorted_insertionSort routeDurLE
      ((buildRoutes pairs).filter fun r => decide (0 < r.duration) && decide (r.duration ≤ 900))
    exact h.imp fun hab => hab

theorem any_of_mapGet?_some (m : List (String × BestEntry)) (k : String) (e : BestEntry)
    (h : mapGet? m k = some e) : (m.any fun q => q.1 == k) = true := by
  rw [mapGet?] at h
  rcases hfind : m.find? fun q => q.1 == k with _ | q
  · rw [hfind] at h
    simp at h
  · rcases List.find?_eq_some.mp hfind with ⟨hq, as, bs, heq, _⟩
    refine List.any_eq_true.mpr ⟨q, ?_, hq⟩
    rw [heq]
    exact List.mem_append.mpr (Or.inr (List.mem_cons_self _ _))

theorem any_of_mapGet?_none (m : List (String × BestEntry)) (k : String)
    (h : mapGet? m k = none) : (m.any fun q => q.1 == k) = false := by
  rcases ha : m.any fun q => q.1 == k with _ | _
  · rfl
  exfalso
  rcases List.any_eq_true.mp ha with ⟨q, hqm, hqk⟩
  rw [mapGet?] at h
  rcases hfind : m.find? fun q => q.1 == k with _ | q'
  · exact List.find?_eq_none.mp hfind q hqm hqk
  · rw [hfind] at h
    simp at h

theorem mapSet_of_absent (m : List (String × BestEntry)) (k : String) (v : BestEntry)
    (h : (m.any fun q => q.1 == k) = false) : mapSet m k v = m ++ [(k, v)] := by
  simp [mapSet, h]

theorem mapSet_keys_of_present (m : List (String × BestEntry)) (k : String) (v : BestEntry)
    (h : (m.any fun q => q.1 == k) = true) :
    (mapSet m k v).map Prod.fst = m.map Prod.fst := by
  simp only [mapSet, h, if_true]
  rw [List.map_map]
  refine List.map_congr_left fun q hq => ?_
  by_cases hqk : (q.1 == k) = true
  · simp only [Function.comp, hqk, if_true]
    exact (beq_iff_eq.mp hqk).symm
  · simp [Function.comp, hqk]

theorem mem_mapSet (m : List (String × BestEntry)) (k : String) (v : BestEntry) (q : String × BestEntry)
    (hq : q ∈ mapSet m k v) : q ∈ m ∨ q = (k, v) := by
  rw [mapSet] at hq
  by_cases h : (m.any fun p => p.1 == k) = true
  · rw [if_pos h] at hq
    rcases List.mem_map.mp hq with ⟨p, hpm, hpe⟩
    by_cases hpk : (p.1 == k) = true
    · rw [if_pos hpk] at hpe
      exact Or.inr hpe.symm
    · rw [if_neg hpk] at hpe
      exact Or.inl (hpe ▸ hpm)
  · rw [if_neg h] at hq
    rcases List.mem_append.mp hq with hq | hq
    · exact Or.inl hq
    · exact Or.inr (List.mem_singleton.mp hq)

theorem find?_map_replace_self (k : String) (v : BestEntry) :
    ∀ (m : List (String × BestEntry)), (m.any fun p => p.1 == k) = true →
      List.find? (fun q => q.1 == k) (m.map fun p => if (p.1 == k) = true then (k, v) else p) =
        some (k, v) := by
  intro m
  induction m with
  | nil => intro h; simp at h
  | cons p ps ih =>
    intro h
    rw [List.map_cons]
    by_cases hpk : (p.1 == k) = true
    · rw [if_pos hpk]
      simp only [List.find?_cons, beq_self_eq_true]
    · have hps : (ps.any fun p => p.1 == k) = true := by
        rcases List.any_eq_true.mp h with ⟨q, hqm, hqk⟩
        rcases List.mem_cons.mp hqm with rfl | hqm
        · exact absurd hqk hpk
        · exact List.any_eq_true.mpr ⟨q, hqm, hqk⟩
      rw [if_neg hpk]
      simp only [List.find?_cons, Bool.eq_false_iff.mpr hpk]
      exact ih hps

theorem find?_append_single_self (k : String) (v : BestEntry) :
    ∀ (m : List (String × BestEntry)), (m.any fun p => p.1 == k) = false →
      List.find? (fun q => q.1 == k) (m ++ [(k, v)]) = some (k, v) := by
  intro m
  induction m with
  | nil =>
    intro _
    simp only [List.nil_append, List.find?_cons, beq_self_eq_true]
  | cons p ps ih =>
    intro h
    rw [List.any_cons, Bool.or_eq_false_iff] at h
    rw [List.cons_append]
    simp only [List.find?_cons, h.1]
    exact ih h.2

theorem find?_map_replace_ne (k k' : String) (v : BestEntry) (hne : k' ≠ k) :
    ∀ (m : List (String × BestEntry)),
      List.find? (fun q => q.1 == k') (m.map fun p => if (p.1 == k) = true then (k, v) else p) =
        List.find? (fun q => q.1 == k') m := by
  intro m
  induction m with
  | nil => rfl
  | cons p ps ih =>
    rw [List.map_cons]
    by_cases hpk : (p.1 == k) = true
    · have hkk' : (k == k') = false := by
        rcases hb : k == k' with _ | _
        · rfl
        · exact absurd (beq_iff_eq.mp hb).symm hne
      have hpk' : (p.1 == k') = false := by
        rcases hb : p.1 == k' with _ | _
        · rfl
        · exact absurd ((beq_iff_eq.mp hpk) ▸ (beq_iff_eq.mp hb) : k = k').symm hne
      rw [if_pos hpk]
      simp only [List.find?_cons, hkk', hpk']
      exact ih
    · rw [if_neg hpk]
      simp only [List.find?_cons]
      rcases hb : p.1 == k' with _ | _
      · exact ih
      · rfl

theorem find?_append_single_ne (k k' : String) (v : BestEntry) (hne : k' ≠ k) :
    ∀ (m : List (String × BestEntry)),
      List.find? (fun q => q.1 == k') (m ++ [(k, v)]) = List.find? (fun q => q.1 == k') m := by
  intro m
  induction m with
  | nil =>
    have hkk' : (k == k') = false := by
      rcases hb : k == k' with _ | _
      · rfl
      · exact absurd (beq_iff_eq.mp hb).symm hne
    simp only [List.nil_append, List.find?_cons, hkk']
  | cons p ps ih =>
    rw [List.cons_append]
    simp only [List.find?_cons]
    rcases hb : p.1 == k' with _ | _
    · exact ih
    · rfl

theorem mapGet?_mapSet_self (m : List (String × BestEntry)) (k : String) (v : BestEntry) :
    mapGet? (mapSet m k v) k = some v := by
  rw [mapSet]
  by_cases h : (m.any fun p => p.1 == k) = true
  · rw [if_pos h, mapGet?, find?_map_replace_self k v m h]
    rfl
  · rw [if_neg h, mapGet?, find?_append_single_self k v m (Bool.eq_false_iff.mpr h)]
    rfl

theorem mapGet?_mapSet_ne (m : List (String × BestEntry)) (k k' : String) (v : BestEntry)
    (hne : k' ≠ k) : mapGet? (mapSet m k v) k' = mapGet? m k' := by
  rw [mapSet]
  by_cases h : (m.any fun p => p.1 == k) = true
  · rw [if_pos h, mapGet?, find?_map_replace_ne k k' v hne m]
    rfl
  · rw [if_neg h, mapGet?, find?_append_single_ne k k' v hne m]
    rfl

theorem considerCombo_fulfilled_none (m : List (String × BestEntry)) (combo : ExitCombo)
    (route : RouteValue) (hsucc : route.success = true)
    (hget : mapGet? m combo.station.name = none) :
    considerCombo m combo (.fulfilled route) =
      mapSet m combo.station.name ⟨combo.exit, route, combo.station⟩ := by
  rw [considerCombo, if_pos hsucc, hget]

theorem considerCombo_fulfilled_some (m : List (String × BestEntry)) (combo : ExitCombo)
    (route : RouteValue) (existing : BestEntry) (hsucc : route.success = true)
    (hget : mapGet? m combo.station.name = some existing) :
    considerCombo m combo (.fulfilled route) =
      if routeScore route < routeScore existing.route then
        mapSet m combo.station.name ⟨combo.exit, route, combo.station⟩
      else
        m := by
  rw [considerCombo, if_pos hsucc, hget]

theorem considerCombo_not_success (m : List (String × BestEntry)) (combo : ExitCombo)
    (route : RouteValue) (hsucc : ¬ route.success = true) :
    considerCombo m combo (.fulfilled route) = m := by
  rw [considerCombo, if_neg hsucc]

theorem stationBestExits_invariant (pairs : List (ExitCombo × SettledOutcome)) :
    ((stationBestExits pairs).map Prod.fst).Nodup ∧
      ∀ q ∈ stationBestExits pairs, q.2.station.name = q.1 := by
  suffices h : ∀ (m : List (String × BestEntry)),
      ((m.map Prod.fst).Nodup ∧ ∀ q ∈ m, q.2.station.name = q.1) →
        (((pairs.foldl (fun m p => considerCombo m p.1 p.2) m).map Prod.fst).Nodup ∧
          ∀ q ∈ pairs.foldl (fun m p => considerCombo m p.1 p.2) m, q.2.station.name = q.1) by
    exact h [] ⟨List.nodup_nil, by simp⟩
  have hstep : ∀ (m : List (String × BestEntry)) (combo : ExitCombo) (outcome : SettledOutcome),
      ((m.map Prod.fst).Nodup ∧ ∀ q ∈ m, q.2.station.name = q.1) →
        (((considerCombo m combo outcome).map Prod.fst).Nodup ∧
          ∀ q ∈ considerCombo m combo outcome, q.2.station.name = q.1) := by
    intro m combo outcome hm
    rcases hm with ⟨hnodup, hval⟩
    have habsent : ∀ (v : BestEntry), v.station.name = combo.station.name →
        (m.any fun q => q.1 == combo.station.name) = false →
        (((mapSet m combo.station.name v).map Prod.fst).Nodup ∧
          ∀ q ∈ mapSet m combo.station.name v, q.2.station.name = q.1) := by
      intro v hv hany
      rw [mapSet_of_absent m _ _ hany]
      constructor
      · rw [List.map_append, List.nodup_append]
        refine ⟨hnodup, List.nodup_singleton _, ?_⟩
        intro x hx hx'
        simp only [List.map_cons, List.map_nil, List.mem_singleton] at hx'
        subst hx'
        rcases List.mem_map.mp hx with ⟨q, hqm, hqe⟩
        have : (m.any fun p => p.1 == combo.station.name) = true :=
          List.any_eq_true.mpr ⟨q, hqm, by simp [hqe]⟩
        rw [hany] at this
        exact Bool.false_ne_true this
      · intro q hq
        rcases List.mem_append.mp hq with hq | hq
        · exact hval q hq
        · rw [List.mem_singleton.mp hq]
          exact hv
    have hpresent : ∀ (v : BestEntry), v.station.name = combo.station.name →
        (m.any fun q => q.1 == combo.station.name) = true →
        (((mapSet m combo.station.name v).map Prod.fst).Nodup ∧
          ∀ q ∈ mapSet m combo.station.name v, q.2.station.name = q.1) := by
      intro v hv hany
      constructor
      · rw [mapSet_keys_of_present m _ _ hany]
        exact hnodup
      · intro q hq
        rcases mem_mapSet m _ _ q hq with hq | hq
        · exact hval q hq
        · rw [hq]
          exact hv
    rcases outcome with _ | route
    · exact ⟨hnodup, hval⟩
    by_cases hsucc : route.success = true
    · rcases hget : mapGet? m combo.station.name with _ | existing
      · rw [considerCombo_fulfilled_none m combo route hsucc hget]
        exact habsent _ rfl (any_of_mapGet?_none m _ hget)
      · rw [considerCombo_fulfilled_some m combo route existing hsucc hget]
        by_cases hscore : routeScore route < routeScore existing.route
        · rw [if_pos hscore]
          exact hpresent _ rfl (any_of_mapGet?_some m _ existing hget)
        · rw [if_neg hscore]
          exact ⟨hnodup, hval⟩
    · rw [considerCombo_not_success m combo route hsucc]
      exact ⟨hnodup, hval⟩
  intro m hm
  induction pairs generalizing m with
  | nil => exact hm
  | cons p ps ih => exact ih (considerCombo m p.1 p.2) (hstep m p.1 p.2 hm)

theorem map_proj_mapIdx {α β γ : Type} (proj : β → γ) (g : α → γ) :
    ∀ (l : List α) (f : ℕ → α → β), (∀ i a, proj (f i a) = g a) →
      (l.mapIdx f).map proj = l.map g := by
  intro l
  induction l with
  | nil => intro f _; rfl
  | cons a as ih =>
    intro f hf
    rw [List.mapIdx_cons, List.map_cons, List.map_cons, hf 0 a]
    rw [ih (fun i => f (i + 1)) fun i a => hf (i + 1) a]

/-- C8: a resolved walkable route set contains at most one route per station
name — the grouping map is keyed by station name, and filtering and sorting
preserve key distinctness. -/
theorem walkable_one_route_per_station (pairs : List (ExitCombo × SettledOutcome)) :
    ((walkableRoutes pairs).map fun r => r.stationName).Nodup := by
  have hbuild : (buildRoutes pairs).map (fun r => r.stationName) =
      (stationBestExits pairs).map Prod.fst := by
    rw [buildRoutes]
    refine Eq.trans
      (map_proj_mapIdx _ (fun (q : String × BestEntry) => q.2.station.name) _ _ fun i a => rfl) ?_
    exact List.map_congr_left fun q hq => (stationBestExits_invariant pairs).2 q hq
  have hperm : ((walkableRoutes pairs).map fun r => r.stationName).Perm
      (((buildRoutes pairs).filter fun r => decide (0 < r.duration) && decide (r.duration ≤ 900)).map
        fun r => r.stationName) :=
    (List.perm_insertionSort routeDurLE _).map _
  rw [hperm.nodup_iff]
  refine List.Sublist.nodup (List.Sublist.map _ (List.filter_sublist _)) ?_
  rw [hbuild]
  exact (stationBestExits_invariant pairs).1

theorem successEntriesFor_cons (s : String) (p : ExitCombo × SettledOutcome)
    (ps : List (ExitCombo × SettledOutcome)) :
    successEntriesFor s (p :: ps) =
      match p.2 with
      | .rejected => successEntriesFor s ps
      | .fulfilled route =>
        if route.success && (p.1.station.name == s) then
          ⟨p.1.exit, route, p.1.station⟩ :: successEntriesFor s ps
        else
          successEntriesFor s ps := rfl

theorem mapGet?_considerCombo (m : List (String × BestEntry)) (combo : ExitCombo)
    (outcome : SettledOutcome) (s : String) :
    mapGet? (considerCombo m combo outcome) s =
      match outcome with
      | .rejected => mapGet? m s
      | .fulfilled route =>
        if route.success && (combo.station.name == s) then
          selectStep (mapGet? m s) ⟨combo.exit, route, combo.station⟩
        else
          mapGet? m s := by
  rcases outcome with _ | route
  · rfl
  by_cases hsucc : route.success = true
  · by_cases hname : (combo.station.name == s) = true
    · have hseq : combo.station.name = s := beq_iff_eq.mp hname
      rcases hget : mapGet? m combo.station.name with _ | existing
      · rw [considerCombo_fulfilled_none m combo route hsucc hget]
        rw [← hseq, hget, mapGet?_mapSet_self]
        simp [hsucc, hname, selectStep]
      · rw [considerCombo_fulfilled_some m combo route existing hsucc hget]
        by_cases hscore : routeScore route < routeScore existing.route
        · rw [if_pos hscore, ← hseq, hget, mapGet?_mapSet_self]
          simp [hsucc, hname, selectStep, hscore]
        · rw [if_neg hscore, ← hseq, hget]
          simp [hsucc, hname, selectStep, hscore]
    · have hne : s ≠ combo.station.name := by
        intro h
        exact absurd (beq_iff_eq.mpr h.symm) (by simpa using hname)
      have hb : (route.success && (combo.station.name == s)) = false := by
        simp [Bool.eq_false_iff.mpr hname]
      rcases hget : mapGet? m combo.station.name with _ | existing
      · rw [considerCombo_fulfilled_none m combo route hsucc hget]
        rw [mapGet?_mapSet_ne m _ s _ hne]
        simp [hb]
      · rw [considerCombo_fulfilled_some m combo route existing hsucc hget]
        by_cases hscore : routeScore route < routeScore existing.route
        · rw [if_pos hscore, mapGet?_mapSet_ne m _ s _ hne]
          simp [hb]
        · rw [if_neg hscore]
          simp [hb]
  · rw [considerCombo_not_success m combo route hsucc]
    simp [Bool.eq_false_iff.mpr hsucc]

theorem stationBestExits_foldl (s : String) :
    ∀ (pairs : List (ExitCombo × SettledOutcome)) (m : List (String × BestEntry)),
      mapGet? (pairs.foldl (fun m p => considerCombo m p.1 p.2) m) s =
        (successEntriesFor s pairs).foldl selectStep (mapGet? m s) := by
  intro pairs
  induction pairs with
  | nil => intro m; rfl
  | cons p ps ih =>
    intro m
    rw [List.foldl_cons, ih (considerCombo m p.1 p.2), successEntriesFor_cons,
      mapGet?_considerCombo]
    rcases p with ⟨combo, outcome⟩
    rcases outcome with _ | route
    · rfl
    dsimp only
    by_cases hcond : (route.success && (combo.station.name == s)) = true
    · rw [if_pos hcond, if_pos hcond]
      rfl
    · rw [if_neg hcond, if_neg hcond]

theorem minScore_cons_some (c : BestEntry) (l : List BestEntry) :
    ∃ m, minScore (c :: l) = some m := by
  rcases h : minScore l with _ | m
  · exact ⟨routeScore c.route, by simp [minScore, h]⟩
  · exact ⟨min (routeScore c.route) m, by simp [minScore, h]⟩

theorem minScore_cons_of_some (c : BestEntry) (l : List BestEntry) (m : ℚ)
    (h : minScore l = some m) :
    minScore (c :: l) = some (min (routeScore c.route) m) := by
  simp [minScore, h]

theorem minScore_le_of_mem :
    ∀ (l : List BestEntry) (x : BestEntry), x ∈ l → ∀ m, minScore l = some m →
      m ≤ routeScore x.route := by
  intro l
  induction l with
  | nil => intro x hx; simp at hx
  | cons c cs ih =>
    intro x hx m hm
    rcases hcs : minScore cs with _ | m'
    · have hcsnil : cs = [] := by
        cases cs with
        | nil => rfl
        | cons d ds =>
          rcases minScore_cons_some d ds with ⟨m'', hm''⟩
          rw [hm''] at hcs
          exact absurd hcs (by simp)
      subst hcsnil
      simp only [List.mem_singleton] at hx
      subst hx
      simp only [minScore, hcs] at hm
      rw [← Option.some_inj.mp hm]
    · rw [minScore_cons_of_some c cs m' hcs] at hm
      rw [← Option.some_inj.mp hm]
      rcases List.mem_cons.mp hx with rfl | hx
      · exact min_le_left _ _
      · exact le_trans (min_le_right _ _) (ih x hx m' hcs)

theorem pickLowest_cons_cons (b c : BestEntry) (l : List BestEntry) :
    pickLowest (b :: c :: l) =
      pickLowest ((if routeScore c.route < routeScore b.route then c else b) :: l) := by
  rcases minScore_cons_some c l with ⟨mc, hmc⟩
  have hmc_le : mc ≤ routeScore c.route :=
    minScore_le_of_mem (c :: l) c (List.mem_cons_self _ _) mc hmc
  by_cases hlt : routeScore c.route < routeScore b.route
  · rw [if_pos hlt]
    have hmin : minScore (b :: c :: l) = some mc := by
      rw [minScore_cons_of_some b (c :: l) mc hmc]
      rw [min_eq_right (le_of_lt (lt_of_le_of_lt hmc_le hlt))]
    rw [pickLowest, hmin, pickLowest, hmc]
    have hbm : (decide (routeScore b.route = mc)) = false :=
      decide_eq_false fun h => absurd h (ne_of_gt (lt_of_le_of_lt hmc_le hlt))
    simp only [List.find?_cons, hbm]
  · have hle : routeScore b.route ≤ routeScore c.route := le_of_not_lt hlt
    rw [if_neg hlt]
    rcases hl : minScore l with _ | M
    · have hlnil : l = [] := by
        cases l with
        | nil => rfl
        | cons d ds =>
          rcases minScore_cons_some d ds with ⟨m'', hm''⟩
          rw [hm''] at hl
          exact absurd hl (by simp)
      subst hlnil
      have h1 : minScore (b :: c :: ([] : List BestEntry)) =
          some (min (routeScore b.route) (routeScore c.route)) := by
        simp [minScore]
      have h2 : minScore (b :: ([] : List BestEntry)) = some (routeScore b.route) := by
        simp [minScore]
      rw [pickLowest, h1, min_eq_left hle, pickLowest, h2]
      simp only [List.find?_cons]
      rfl
    · have hmc' : mc = min (routeScore c.route) M := by
        rw [minScore_cons_of_some c l M hl] at hmc
        exact (Option.some_inj.mp hmc).symm
      have h1 : minScore (b :: c :: l) = some (min (routeScore b.route) M) := by
        rw [minScore_cons_of_some b (c :: l) mc hmc, hmc', ← min_assoc,
          min_eq_left hle]
      have h2 : minScore (b :: l) = some (min (routeScore b.route) M) :=
        minScore_cons_of_some b l M hl
      rw [pickLowest, h1, pickLowest, h2]
      by_cases hbm : routeScore b.route = min (routeScore b.route) M
      · have hbp : (decide (routeScore b.route = min (routeScore b.route) M)) = true :=
          decide_eq_true hbm
        simp only [List.find?_cons, hbp]
      · have hbp : (decide (routeScore b.route = min (routeScore b.route) M)) = false :=
          decide_eq_false hbm
        have hmlt : min (routeScore b.route) M < routeScore b.route :=
          lt_of_le_of_ne (min_le_left _ _) fun h => hbm h.symm
        have hcp : (decide (routeScore c.route = min (routeScore b.route) M)) = false :=
          decide_eq_false fun h =>
            absurd h (ne_of_gt (lt_of_lt_of_le hmlt hle))
        simp only [List.find?_cons, hbp, hcp]

theorem foldl_selectStep_some (l : List BestEntry) :
    ∀ b : BestEntry, l.foldl selectStep (some b) = pickLowest (b :: l) := by
  induction l with
  | nil =>
    intro b
    have h2 : minScore [b] = some (routeScore b.route) := by simp [minScore]
    rw [List.foldl_nil, pickLowest, h2]
    simp only [List.find?_cons]
    rfl
  | cons c cs ih =>
    intro b
    rw [List.foldl_cons]
    have hsel : selectStep (some b) c =
        some (if routeScore c.route < routeScore b.route then c else b) := by
      rw [selectStep]
      by_cases hlt : routeScore c.route < routeScore b.route
      · rw [if_pos hlt, if_pos hlt]
      · rw [if_neg hlt, if_neg hlt]
    rw [hsel, ih, ← pickLowest_cons_cons]

theorem foldl_selectStep_eq_pickLowest (l : List BestEntry) :
    l.foldl selectStep none = pickLowest l := by
  cases l with
  | nil => rfl
  | cons c cs =>
    rw [List.foldl_cons]
    have : selectStep none c = some c := rfl
    rw [this, foldl_selectStep_some]

/-- C1: grouping candidates by station, the resolver keeps for each station
exactly the successful candidate whose score is lowest, where score is
duration × 0.7 for indoor candidates and plain duration otherwise
(`routeScore`); among equal-score candidates the one encountered first in
station-exit enumeration order survives (`pickLowest` returns the first
candidate attaining the minimal score). -/
theorem best_exit_per_station (pairs : List (ExitCombo × SettledOutcome)) (s : String) :
    mapGet? (stationBestExits pairs) s = pickLowest (successEntriesFor s pairs) := by
  rw [stationBestExits, stationBestExits_foldl s pairs []]
  exact foldl_selectStep_eq_pickLowest _

theorem map_proj_mapIdx_idx {α β γ : Type} (proj : β → γ) :
    ∀ (l : List α) (f : ℕ → α → β) (g : ℕ → γ), (∀ i a, proj (f i a) = g i) →
      (l.mapIdx f).map proj = (List.range l.length).map g := by
  intro l
  induction l with
  | nil => intro f g _; rfl
  | cons a as ih =>
    intro f g hf
    rw [List.mapIdx_cons, List.map_cons, List.length_cons, List.range_succ_eq_map,
      List.map_cons, hf 0 a, List.map_map]
    exact congrArg _ (ih (fun i => f (i + 1)) (fun i => g (i + 1)) fun i a => hf (i + 1) a)

/-- C3 (amended): route ids `walking-route-{i}` are assigned in the order of
the station-grouping map — before the reachability filter and the duration
sort — so the id index reflects grouping position, not sorted position;
separately, the first (shortest-duration) surviving route is designated the
active route when a map is attached. -/
theorem route_ids_in_grouping_order (pairs : List (ExitCombo × SettledOutcome)) (prev : Option String) :
    (buildRoutes pairs).map (fun r => r.routeId) =
        (List.range (buildRoutes pairs).length).map (fun i => "walking-route-" ++ toString i) ∧
      resolveActiveRouteId prev pairs true =
        (match (walkableRoutes pairs).head? with
         | some r => some r.routeId
         | none => prev) := by
  constructor
  · rw [buildRoutes]
    have hlen : (buildRoutes pairs).length = (stationBestExits pairs).length := by
      rw [buildRoutes, List.length_mapIdx]
    rw [buildRoutes] at hlen
    rw [hlen]
    exact map_proj_mapIdx_idx _ _ _ (fun i => "walking-route-" ++ toString i) fun i a => rfl
  · rcases h : walkableRoutes pairs with _ | ⟨r, rest⟩
    · rw [resolveActiveRouteId, h]
      rfl
    · rw [resolveActiveRouteId, h]
      rfl

/-- C3 counterexample: with two stations grouped in the order Alpha (800 s)
then Beta (500 s), the duration-sorted walkable set carries ids
`["walking-route-1", "walking-route-0"]` — not `walking-route-{i}` at sorted
position `i`. -/
theorem route_ids_not_sorted_order :
    (walkableRoutes pairsAlphaBeta).map (fun r => r.routeId) ≠
      (List.range (walkableRoutes pairsAlphaBeta).length).map
        (fun i => "walking-route-" ++ toString i) := by
  decide

/-- C4: for every station-exit/destination pair, when the indoor catalog
(queried with the exit as `from`, the destination as `to`, and the 150 m
detour the resolver passes) returns at least one usable connection, the
candidate is synthesized from the *first* returned connection — its
distance, duration, instructions and features, geometry a straight line
between the connection's endpoints, marked indoor — and the directions
result is not consulted (the candidate is independent of it); otherwise the
directions result is adopted and marked outdoor. -/
theorem indoor_candidate_selection (dist : DistFn) (exitCoordinates origin : Coord)
    (d d' : RouteValue) :
    computeCandidate dist exitCoordinates origin d =
        (match (findUsableSpec dist exitCoordinates origin 150).head? with
         | some c => synthIndoorCandidate c
         | none => outdoorCandidate d) ∧
      ((findUsableSpec dist exitCoordinates origin 150).isEmpty = false →
        computeCandidate dist exitCoordinates origin d =
          computeCandidate dist exitCoordinates origin d') := by
  have heq := findRelevant_eq_spec dist exitCoordinates origin 150
  constructor
  · rw [computeCandidate, heq]
    rcases h : findUsableSpec dist exitCoordinates origin 150 with _ | ⟨c, rest⟩
    · rfl
    · rfl
  · intro hne
    rw [computeCandidate, computeCandidate, heq]
    rcases h : findUsableSpec dist exitCoordinates origin 150 with _ | ⟨c, rest⟩
    · rw [h] at hne
      simp at hne
    · rfl

/-- C4 witness: with an everywhere-zero distance every indoor connection is
usable, and the synthesized candidate for the pair is the same whether the
directions oracle would have succeeded or failed — no directions call is
consulted. -/
theorem indoor_candidate_selection_witness :
    computeCandidate distZero coordZero coordZero routeValue800 =
      computeCandidate distZero coordZero coordZero routeValueFailed :=
  (indoor_candidate_selection distZero coordZero coordZero routeValue800 routeValueFailed).2
    (by decide)

/-- C6: in the legacy matrix-based resolver, a fulfilled, successful matrix
result with a non-null entry supplies the pair's duration and distance
(regardless of the directions outcome); a rejected or unsuccessful matrix
call degrades each pair to its individual directions result (0 when that
also failed); each pair's route depends only on that pair's directions
outcome, so one pair's failure leaves every other pair unchanged; and the
walkable filter then drops exactly the zero-duration (failed) and
over-threshold pairs. -/
theorem matrix_preferred_with_directions_fallback (matrix : MatrixValue)
    (mo : Option MatrixValue) (dirs dirs' : List (Option LegacyDirValue))
    (dirResult : Option LegacyDirValue) (stations : List LegacyStation) (i j : Nat) (q : ℚ) :
    (matrix.success = true → matrix.durations.getD i none = some q →
        legacySelectField (some matrix) (fun m => m.durations) (fun d => d.duration) dirResult i = q) ∧
      (matrix.success = true → matrix.distances.getD i none = some q →
        legacySelectField (some matrix) (fun m => m.distances) (fun d => d.distance) dirResult i = q) ∧
      (legacySelectField none (fun m => m.durations) (fun d => d.duration) dirResult i =
        (match dirResult with
         | some dv => if dv.success = true then dv.duration else 0
         | none => 0)) ∧
      (matrix.success = false →
        legacySelectField (some matrix) (fun m => m.durations) (fun d => d.duration) dirResult i =
          (match dirResult with
           | some dv => if dv.success = true then dv.duration else 0
           | none => 0)) ∧
      (dirs.getD j none = dirs'.getD j none →
        (legacyRoutes mo dirs stations)[j]? = (legacyRoutes mo dirs' stations)[j]?) ∧
      (∀ r ∈ legacyWalkableRoutes mo dirs stations, 0 < r.duration ∧ r.duration ≤ 900) := by
  refine ⟨?_, ?_, rfl, ?_, ?_, ?_⟩
  · intro hs hd
    simp only [legacySelectField, if_pos hs, hd]
  · intro hs hd
    simp only [legacySelectField, if_pos hs, hd]
  · intro hs
    simp [legacySelectField, hs]
  · intro hj
    simp only [legacyRoutes, List.getElem?_mapIdx]
    rcases hst : stations[j]? with _ | st
    · rfl
    · simp only [Option.map_some, legacyRoute, hj]
  · intro r hr
    rcases List.mem_filter.mp hr with ⟨_, hpred⟩
    rw [Bool.and_eq_true, decide_eq_true_eq, decide_eq_true_eq] at hpred
    exact hpred

/-- C6 witness: a successful matrix value `{distances: [5], durations: [7]}`
supplies duration 7 for pair 0 even though no directions result exists. -/
theorem matrix_preferred_witness :
    legacySelectField (some ⟨[some 5], [some 7], true⟩) (fun m => m.durations)
        (fun d => d.duration) none 0 = 7 :=
  (matrix_preferred_with_directions_fallback ⟨[some 5], [some 7], true⟩ none [] [] none [] 0 0 7).1
    rfl rfl

/-- C9: `switchActiveRoute` issues no network calls — every collaborator
call it makes is map styling or marker bookkeeping — and leaves the
resolved route list (both the React state and the ref), the session token
and the drawn route ids unchanged; only the active route id and the
endpoint markers may change. -/
theorem switch_active_route_frame (s : SessionState) (routeId : String) (hasMap : Bool)
    (loc : Coord) :
    (switchActiveRoute s routeId hasMap loc).1.routeData = s.routeData ∧
      (switchActiveRoute s routeId hasMap loc).1.routeDataRef = s.routeDataRef ∧
      (switchActiveRoute s routeId hasMap loc).1.currentToken = s.currentToken ∧
      (switchActiveRoute s routeId hasMap loc).1.activeRouteIds = s.activeRouteIds ∧
      ((switchActiveRoute s routeId hasMap loc).2.all fun e => !isNetworkEffect e) = true := by
  rcases hfind : s.routeDataRef.find? fun r => r.routeId == routeId with _ | route <;>
    by_cases hm : hasMap = true <;>
      simp [switchActiveRoute, hfind, hm, isNetworkEffect]

/-- C10 (amended): the resolution continuation discards its endpoint markers
when its abort token is no longer current, and the switch continuation
discards its markers when the drawn-route list is empty (after a clear);
`clearRoutes` leaves no markers attached.  (The switch continuation's guard
checks only non-emptiness, not session identity — see the counterexample.) -/
theorem marker_continuation_guards (s : SessionState) (token : Nat)
    (markers : List TaggedMarker) :
    (s.currentToken ≠ some token →
        sessionStep s (.fetchMarkersReady token markers) = s) ∧
      (s.activeRouteIds = [] →
        sessionStep s (.switchMarkersReady markers) = s) ∧
      (sessionStep s .clearRoutes).endpointMarkers = [] := by
  refine ⟨?_, ?_, rfl⟩
  · intro h
    rw [sessionStep, if_neg h]
  · intro h
    rw [sessionStep, if_pos (by simp [h] : s.activeRouteIds.isEmpty = true)]

/-- C10 witness: a marker continuation of resolution token 2 finds the
current token is 1 and leaves the state untouched. -/
theorem marker_continuation_guards_witness :
    sessionStep sessionAfterFirstResolve (.fetchMarkersReady 2 staleMarkers) =
      sessionAfterFirstResolve :=
  (marker_continuation_guards sessionAfterFirstResolve 2 staleMarkers).1 (by decide)

/-- C10 counterexample: a switch begun under session 1 has its marker
continuation resolve after a new resolution (token 2) has started and drawn
its routes; the guard (`activeRouteIds` nonempty) passes, and the stale
session-1 markers are attached to the session state whose current token is
2 — the guard does not check that the session is still current. -/
theorem stale_switch_markers_attached :
    (sessionRun sessionAfterFirstResolve staleMarkerTrace).endpointMarkers.map
        (fun mk => mk.originToken) = [some 1, some 1] ∧
      (sessionRun sessionAfterFirstResolve staleMarkerTrace).currentToken = some 2 := by
  decide
